import Mathlib

/-!
# Shallow embedding of TIFFTrim (`src/tifftrim/trim.py`, `src/tifftrim/cli.py`)

This file embeds the core logic of the TIFFTrim utility in Lean 4 and proves
(or refutes) the claims of its specification.

The embedding follows the Python source line by line:
* `parse_frame_range` — `trim.py` lines 276-298, including a model of
  CPython's `str.strip` and `int()` parsing (ASCII inputs);
* `_AUTO_HANDLED_TAG_CODES` and the per-page tag carry-over loop —
  `trim.py` lines 16-29 and 84-121 resp. 213-249;
* `trim_3d_tiff` — `trim.py` lines 32-151, as a function producing the
  ordered trace of file-system events (directory creation, output-file
  creation, per-frame writes) together with the raised error, if any;
* `split_3d_tiff_into_chunks` — `trim.py` lines 154-273, likewise;
* `main` — `cli.py` lines 55-83, including a model of Python keyword-call
  semantics (a keyword argument not accepted by the callee raises
  `TypeError` before the callee's body runs).

External collaborators (the tifffile codec, tqdm, argparse) are not part of
the embedding; the decoded pixel array is an abstract `NpArr α` (a numpy
array seen as its `shape` together with its list of axis-0 slabs), and
writing a frame is an emitted event rather than real I/O.
-/

/-! ## Python string helpers (`str.strip`, `in`, `str.split(":", 1)`, `int()`) -/

/-- The six ASCII whitespace characters removed by `str.strip()`
(the embedding restricts itself to ASCII input). -/
def isPySpace (c : Char) : Bool :=
  c = ' ' || c = '\t' || c = '\n' || c = '\x0d' || c = '\x0b' || c = '\x0c'

/-- `str.strip()` on a character list: drop leading and trailing whitespace. -/
def pyStripList (cs : List Char) : List Char :=
  ((cs.dropWhile isPySpace).reverse.dropWhile isPySpace).reverse

/-- `str.strip()`. -/
def pyStrip (s : String) : String :=
  ⟨pyStripList s.data⟩

/-- `":" in text`. -/
def hasColon (s : String) : Bool :=
  s.data.contains ':'

/-- `text.split(":", 1)` on a character list: the part before the first
colon and the part after it (the whole text and `[]` when no colon occurs;
the caller only uses it after checking `":" in text`). -/
def splitFirstColonList : List Char → List Char × List Char
  | [] => ([], [])
  | c :: cs =>
    if c = ':' then ([], cs)
    else
      let p := splitFirstColonList cs
      (c :: p.1, p.2)

/-- `text.split(":", 1)` returning the two pieces as strings. -/
def pySplitFirstColon (s : String) : String × String :=
  let p := splitFirstColonList s.data
  (⟨p.1⟩, ⟨p.2⟩)

/-- Digit run accepted by CPython `int()` after the first digit: digits with
single underscores allowed between digits ("1_000" is valid, "1__0", "1_",
"_1" are not). -/
def pyDigitsTail : List Char → Bool
  | [] => true
  | '_' :: c :: cs => c.isDigit && pyDigitsTail cs
  | '_' :: [] => false
  | c :: cs => c.isDigit && pyDigitsTail cs

/-- Digit run accepted by CPython `int()`: nonempty, starts with a digit. -/
def pyDigits : List Char → Bool
  | [] => false
  | c :: cs => c.isDigit && pyDigitsTail cs

/-- Numeric value of a digit run, ignoring underscores. -/
def pyDigitsVal (cs : List Char) : Nat :=
  cs.foldl (fun a c => if c = '_' then a else a * 10 + (c.toNat - 48)) 0

/-- CPython `int(s)` on ASCII text: strip whitespace, optional sign, then a
digit run; `none` models the `ValueError` raised on anything else. -/
def pyInt (s : String) : Option Int :=
  match pyStripList s.data with
  | '+' :: rest => if pyDigits rest then some (pyDigitsVal rest : Int) else none
  | '-' :: rest => if pyDigits rest then some (-(pyDigitsVal rest : Int)) else none
  | rest => if pyDigits rest then some (pyDigitsVal rest : Int) else none

/-! ## `parse_frame_range` (`trim.py` lines 276-298) -/

/-- The three `ValueError` shapes `parse_frame_range` can raise: the two
explicit format errors, and the numeric error raised by `int()` (carrying
the offending portion). -/
inductive RangeErr where
  | formatNoSeparator
  | formatEmptyStart
  | numericParse (portion : String)
deriving DecidableEq, Repr

/-- `parse_frame_range` (`trim.py` 276-298): strip, require a colon, split at
the first colon, strip both parts, require a nonempty start, parse `start`
with `int()`, and parse `end` with `int()` unless it is empty (empty end
means unbounded, returned as `none`). -/
def parse_frame_range (range_text : String) : Except RangeErr (Int × Option Int) :=
  let text := pyStrip range_text
  if !hasColon text then
    .error .formatNoSeparator
  else
    let parts := pySplitFirstColon text
    let start_str := pyStrip parts.1
    let end_str := pyStrip parts.2
    if start_str = "" then
      .error .formatEmptyStart
    else
      match pyInt start_str with
      | none => .error (.numericParse start_str)
      | some start =>
        if end_str = "" then
          .ok (start, none)
        else
          match pyInt end_str with
          | none => .error (.numericParse end_str)
          | some e => .ok (start, some e)

/-! ## Tags and per-page carry-over (`trim.py` lines 16-29, 84-121) -/

/-- `_AUTO_HANDLED_TAG_CODES` (`trim.py` 16-29). -/
def _AUTO_HANDLED_TAG_CODES : List Nat :=
  [256, 257, 258, 259, 262, 277, 278, 279, 284, 317, 320, 339]

/-- A TIFF tag value as the carry-over loop distinguishes them: a Python
tuple, a Python list, or anything else (a scalar). -/
inductive TagValue where
  | scalar (v : Int)
  | tupleVal (vs : List Int)
  | listVal (vs : List Int)
deriving DecidableEq, Repr

/-- `value = list(tag.value) if isinstance(tag.value, (tuple, list)) else tag.value`
(`trim.py` 92-95): sequence values are normalized to plain lists. -/
def normalizeTagValue : TagValue → TagValue
  | .scalar v => .scalar v
  | .tupleVal vs => .listVal vs
  | .listVal vs => .listVal vs

/-- One tag of a TIFF page.  `representable` models whether the `try` block
around the extratag construction succeeds for this tag (`trim.py` 91-108:
tags whose values cannot be serialized raise and are skipped). -/
structure Tag where
  code : Nat
  dtype : Nat
  count : Nat
  value : TagValue
  representable : Bool
deriving DecidableEq, Repr

/-- One entry of an `extratags` list: the 5-tuple
`(int(tag.code), tag.dtype, tag.count, value, False)` (`trim.py` 97-105). -/
structure ExtraTag where
  code : Nat
  dtype : Nat
  count : Nat
  value : TagValue
  writeonce : Bool
deriving DecidableEq, Repr

/-- The inner tag loop (`trim.py` 86-108): skip auto-handled codes, and for
the rest build the extratag 5-tuple, skipping any tag whose value cannot be
serialized (the `except: continue`). -/
def extractExtratags (tags : List Tag) : List ExtraTag :=
  tags.filterMap fun tag =>
    if tag.code ∈ _AUTO_HANDLED_TAG_CODES then
      none
    else if tag.representable then
      some ⟨tag.code, tag.dtype, tag.count, normalizeTagValue tag.value, false⟩
    else
      none

/-- A decoded TIFF page: its tags plus the named attributes the code reads
directly (`trim.py` 110-121). -/
structure Page where
  tags : List Tag
  description : String
  datetime : String
  resolution : Int × Int
  compression : Nat
  photometric : Nat
  planarconfig : Nat
  software : String
deriving DecidableEq, Repr

/-- One `original_pages` record (`trim.py` 110-121): the extracted extratags
plus the named attributes. -/
structure PageInfo where
  extratags : List ExtraTag
  description : String
  datetime : String
  resolution : Int × Int
  compression : Nat
  photometric : Nat
  planarconfig : Nat
  software : String
deriving DecidableEq, Repr

/-- Build the `original_pages` record of one page (`trim.py` 86-121). -/
def pageInfoOf (p : Page) : PageInfo :=
  { extratags := extractExtratags p.tags
    description := p.description
    datetime := p.datetime
    resolution := p.resolution
    compression := p.compression
    photometric := p.photometric
    planarconfig := p.planarconfig
    software := p.software }

/-! ## The decoded array, slicing, and file-system events -/

/-- A decoded numpy array: its `shape` and its list of axis-0 slabs
(`frames`), each slab of abstract type `α`.  For a well-formed 3-D stack,
`shape = [frames.length, height, width]`. -/
structure NpArr (α : Type) where
  shape : List Nat
  frames : List α
deriving Repr

/-- Python slicing `xs[s:e]` for `0 ≤ s, e` (both slice sites in the source
run after validation has established nonnegative bounds). -/
def pySlice {α : Type} (xs : List α) (s e : Nat) : List α :=
  (xs.take e).drop s

/-- Observable file-system/output events of a run, in program order. -/
inductive Ev (α : Type) where
  | mkdirParents (path : String)
  | createFile (path : String)
  | writeFrame (path : String) (idx : Nat) (frame : α) (info : PageInfo)
      (withGlobalMetadata : Bool)
deriving DecidableEq, Repr

/-- Errors raised by the two operations and the CLI call model. -/
inductive Err where
  | fileNotFound (path : String)
  | shapeError (shape : List Nat)
  | startFrameError (s : Int) (n : Nat)
  | endFrameError (e : Int) (n : Nat)
  | startNotBeforeEnd
  | chunkSizeError
  | typeErrorUnexpectedKeyword (kw : String)
deriving DecidableEq, Repr

/-- Is this event the creation of an output file? -/
def Ev.isCreate {α : Type} : Ev α → Bool
  | .createFile _ => true
  | _ => false

/-- The frames carried by the write events of a trace, in trace order. -/
def writtenFrames {α : Type} (evs : List (Ev α)) : List α :=
  evs.filterMap fun ev =>
    match ev with
    | .writeFrame _ _ f _ _ => some f
    | _ => none

/-! ## `trim_3d_tiff` (`trim.py` lines 32-151) -/

/-- The per-frame write loop of the trim operation (`trim.py` 125-148):
`for idx, (frame, page_info) in enumerate(zip(trimmed_data, original_pages))`,
passing the ImageJ metadata block only at `idx == 0`. -/
def writeFrameEvents {α : Type} (outPath : String) (frames : List α)
    (infos : List PageInfo) : List (Ev α) :=
  (frames.zip infos).enum.map fun p =>
    .writeFrame outPath p.1 p.2.1 p.2.2 (p.1 == 0)

/-- `trim_3d_tiff` (`trim.py` 32-151).  `inputExists` models
`input_path.exists()`; the result is the trace of events the run emitted,
paired with the raised error if any.  Control flow follows the source:
input-existence check, parent `mkdir`, decode, 3-D shape check, resolution
of an unbounded end to `n_frames`, the three range checks, tag extraction
over `pages[start:end]`, slicing `data[start:end]`, then the writer is
opened and the frames are written. -/
def trim_3d_tiff {α : Type} (inputExists : Bool) (input_path : String)
    (arr : NpArr α) (pages : List Page) (output_path : String)
    (start_frame : Int) (end_frame : Option Int) :
    List (Ev α) × Option Err :=
  if !inputExists then
    ([], some (.fileNotFound input_path))
  else
    let evs0 : List (Ev α) := [.mkdirParents output_path]
    if arr.shape.length ≠ 3 then
      (evs0, some (.shapeError arr.shape))
    else
      let n_frames := arr.shape.headD 0
      let endv : Int := end_frame.getD (n_frames : Int)
      if start_frame < 0 || start_frame > (n_frames : Int) then
        (evs0, some (.startFrameError start_frame n_frames))
      else if endv < 0 || endv > (n_frames : Int) then
        (evs0, some (.endFrameError endv n_frames))
      else if start_frame ≥ endv then
        (evs0, some .startNotBeforeEnd)
      else
        let original_pages :=
          (pySlice pages start_frame.toNat endv.toNat).map pageInfoOf
        let trimmed_data := pySlice arr.frames start_frame.toNat endv.toNat
        (evs0 ++ .createFile output_path ::
            writeFrameEvents output_path trimmed_data original_pages,
          none)

/-! ## `split_3d_tiff_into_chunks` (`trim.py` lines 154-273) -/

/-- Python `range(start, stop, step)` for a positive step, via CPython's own
length formula: the range has `max(0, ceil((stop - start) / step))` elements,
the `i`-th being `start + step * i`.  (Natural subtraction makes the `max`
implicit.) -/
def pyRange (start stop step : Nat) : List Nat :=
  (List.range ((stop - start + step - 1) / step)).map fun i => start + step * i

/-- The chunk plan (`trim.py` 198):
`[(start, min(start + chunk_size, n_frames)) for start in range(0, n_frames, chunk_size)]`. -/
def chunkRanges (n_frames chunk_size : Nat) : List (Nat × Nat) :=
  (pyRange 0 n_frames chunk_size).map fun start =>
    (start, min (start + chunk_size) n_frames)

/-- Output path of one chunk (`trim.py` 211):
`output_dir / f"{input_path.stem}_frames_{start}_{end}.tif"`. -/
def chunkPath (output_dir stem : String) (r : Nat × Nat) : String :=
  output_dir ++ "/" ++ stem ++ "_frames_" ++ toString r.1 ++ "_" ++ toString r.2 ++ ".tif"

/-- The events of writing one chunk (`trim.py` 210-266): open the chunk's
output file, then write `zip(chunk_data, original_pages)` as in trim. -/
def chunkEvents {α : Type} (arr : NpArr α) (pages : List Page)
    (output_dir stem : String) (r : Nat × Nat) : List (Ev α) :=
  let out_path := chunkPath output_dir stem r
  let original_pages := (pySlice pages r.1 r.2).map pageInfoOf
  let chunk_data := pySlice arr.frames r.1 r.2
  .createFile out_path :: writeFrameEvents out_path chunk_data original_pages

/-- `split_3d_tiff_into_chunks` (`trim.py` 154-273).  Control flow follows
the source: positivity check on `chunk_size` (before the input is even
looked at), input-existence check, output-directory `mkdir`, decode, 3-D
shape check, early `return []` on an empty stack, the chunk-range
comprehension, then one file written per range with the written paths
collected in order. -/
def split_3d_tiff_into_chunks {α : Type} (inputExists : Bool)
    (input_path : String) (arr : NpArr α) (pages : List Page)
    (output_dir stem : String) (chunk_size : Int) :
    List (Ev α) × Except Err (List String) :=
  if chunk_size ≤ 0 then
    ([], .error .chunkSizeError)
  else if !inputExists then
    ([], .error (.fileNotFound input_path))
  else
    let evs0 : List (Ev α) := [.mkdirParents output_dir]
    if arr.shape.length ≠ 3 then
      (evs0, .error (.shapeError arr.shape))
    else
      let n_frames := arr.shape.headD 0
      if n_frames = 0 then
        (evs0, .ok [])
      else
        let ranges := chunkRanges n_frames chunk_size.toNat
        (evs0 ++ ranges.flatMap (chunkEvents arr pages output_dir stem),
          .ok (ranges.map (chunkPath output_dir stem)))

/-! ## The CLI (`cli.py` lines 9-83) -/

/-- The parsed argparse namespace (`cli.py` 9-52): `--range` and
`--chunk-size` form a required mutually exclusive group, `--block-size`
defaults to 3. -/
structure Args where
  input : String
  output : String
  range : Option String
  chunk_size : Option Int
  block_size : Int := 3
  no_quiet : Bool := false
deriving Repr

/-- The keyword parameters `split_3d_tiff_into_chunks` accepts
(`trim.py` 154-161: the keyword-only parameters after `*`). -/
def split_accepted_keywords : List String :=
  ["quiet_tifffile_warnings", "show_progress"]

/-- The keyword arguments `main` passes to `split_3d_tiff_into_chunks`
(`cli.py` 63-69: `block_size=args.block_size, quiet_tifffile_warnings=quiet`). -/
def cli_split_call_keywords : List String :=
  ["block_size", "quiet_tifffile_warnings"]

/-- Python call semantics: a call raises `TypeError` before the callee's
body runs when some passed keyword is not among the accepted keywords. -/
def unexpectedKeyword (passed accepted : List String) : Option String :=
  passed.find? fun kw => !accepted.contains kw

/-- `main` (`cli.py` 55-83).  The environment (whether the input exists, the
decoded array, the pages) is passed in explicitly.  In split mode the code
calls `split_3d_tiff_into_chunks(..., block_size=args.block_size, ...)`;
whether that call even enters the callee is governed by
`unexpectedKeyword`.  Every exception is caught at the bottom and turned
into exit code 2; the trace of events already emitted is returned.
(Named `Cli.main` because Lean reserves the bare name `main`.) -/
def Cli.main {α : Type} (args : Args) (inputExists : Bool) (arr : NpArr α)
    (pages : List Page) : Nat × List (Ev α) :=
  if args.chunk_size.isSome then
    match unexpectedKeyword cli_split_call_keywords split_accepted_keywords with
    | some _ =>
      (2, [])
    | none =>
      let r := split_3d_tiff_into_chunks inputExists args.input arr pages
        args.output args.input (args.chunk_size.getD 0)
      match r.2 with
      | .ok _ => (0, r.1)
      | .error _ => (2, r.1)
  else
    match args.range with
    | none =>
      (2, [])
    | some rng =>
      match parse_frame_range rng with
      | .error _ => (2, [])
      | .ok se =>
        let r := trim_3d_tiff inputExists args.input arr pages args.output
          se.1 se.2
        match r.2 with
        | none => (0, r.1)
        | some _ => (2, r.1)


/-- A sample decoded page used to instantiate universally quantified
theorems at concrete inputs: one carried-over tag (ImageDescription, code
270) and one auto-handled tag (ImageWidth, code 256). -/
def samplePage : Page :=
  ⟨[⟨270, 2, 5, TagValue.scalar 7, true⟩, ⟨256, 3, 1, TagValue.scalar 640, true⟩],
    "desc", "2020:01:01 00:00:00", (72, 72), 1, 1, 1, "sw"⟩

/-! ## Structure lemmas about the chunk plan -/

lemma pyRange_eq_nil {s n c : Nat} (hs : n ≤ s) : pyRange s n c = [] := by
  unfold pyRange
  have h0 : n - s = 0 := Nat.sub_eq_zero_of_le hs
  rcases Nat.eq_zero_or_pos c with hc | hc
  · simp [h0, hc]
  · have : (c - 1) / c = 0 := Nat.div_eq_of_lt (by omega)
    simp [h0, this]

lemma pyRange_eq_cons {s n c : Nat} (hc : 0 < c) (hs : s < n) :
    pyRange s n c = s :: pyRange (s + c) n c := by
  unfold pyRange
  have h1 : n - s + c - 1 = (n - s - 1) + c := by omega
  have h2 : ((n - s - 1) + c) / c = (n - s - 1) / c + 1 := Nat.add_div_right _ hc
  have h4 : (n - (s + c) + c - 1) / c = (n - s - 1) / c := by
    by_cases hle : s + c ≤ n
    · congr 1
      omega
    · rw [Nat.div_eq_of_lt (by omega), Nat.div_eq_of_lt (by omega)]
  rw [h1, h2, h4, List.range_succ_eq_map, List.map_cons, List.map_map]
  refine congrArg₂ _ (by omega) ?_
  refine List.map_congr_left fun i _ => ?_
  simp only [Function.comp_apply, Nat.succ_eq_add_one]
  ring

lemma pyRange_mem_lt {n c : Nat} (hc : 0 < c) :
    ∀ s x, x ∈ pyRange s n c → x < n := by
  have H : ∀ m s x, n - s ≤ m → x ∈ pyRange s n c → x < n := by
    intro m
    induction m with
    | zero =>
      intro s x hm hx
      rw [pyRange_eq_nil (by omega)] at hx
      cases hx
    | succ m ih =>
      intro s x hm hx
      by_cases hs : s < n
      · rw [pyRange_eq_cons hc hs] at hx
        rcases List.mem_cons.mp hx with h | h
        · omega
        · exact ih (s + c) x (by omega) h
      · rw [pyRange_eq_nil (by omega)] at hx
        cases hx
  exact fun s x hx => H (n - s) s x le_rfl hx

lemma pyRange_chain {n c : Nat} (hc : 0 < c) :
    ∀ s, List.Chain' (fun x y => y = x + c ∧ y < n) (pyRange s n c) := by
  have H : ∀ m s, n - s ≤ m → List.Chain' (fun x y => y = x + c ∧ y < n) (pyRange s n c) := by
    intro m
    induction m with
    | zero =>
      intro s hm
      rw [pyRange_eq_nil (by omega)]
      exact List.chain'_nil
    | succ m ih =>
      intro s hm
      by_cases hs : s < n
      · rw [pyRange_eq_cons hc hs]
        by_cases hs2 : s + c < n
        · rw [pyRange_eq_cons hc hs2]
          refine List.chain'_cons.mpr ⟨⟨rfl, hs2⟩, ?_⟩
          rw [← pyRange_eq_cons hc hs2]
          exact ih (s + c) (by omega)
        · rw [pyRange_eq_nil (by omega)]
          exact List.chain'_singleton s
      · rw [pyRange_eq_nil (by omega)]
        exact List.chain'_nil
  exact fun s => H (n - s) s le_rfl

lemma pyRange_cover {n c : Nat} (hc : 0 < c) :
    ∀ s, (pyRange s n c).flatMap (fun x => List.range' x (min (x + c) n - x)) =
      List.range' s (n - s) := by
  have H : ∀ m s, n - s ≤ m →
      (pyRange s n c).flatMap (fun x => List.range' x (min (x + c) n - x)) =
        List.range' s (n - s) := by
    intro m
    induction m with
    | zero =>
      intro s hm
      rw [pyRange_eq_nil (by omega)]
      simp [Nat.sub_eq_zero_of_le (by omega : n ≤ s)]
    | succ m ih =>
      intro s hm
      by_cases hs : s < n
      · rw [pyRange_eq_cons hc hs, List.flatMap_cons, ih (s + c) (by omega)]
        by_cases hs2 : s + c ≤ n
        · have hmin : min (s + c) n = s + c := by omega
          rw [hmin]
          have : min (s + c) n - s = c := by omega
          calc List.range' s (s + c - s) ++ List.range' (s + c) (n - (s + c))
              = List.range' s c ++ List.range' (s + c) (n - (s + c)) := by
                rw [show s + c - s = c by omega]
            _ = List.range' s (n - (s + c) + c) := List.range'_append_1 s c (n - (s + c))
            _ = List.range' s (n - s) := by rw [show n - (s + c) + c = n - s by omega]
        · have hmin : min (s + c) n = n := by omega
          rw [hmin]
          have h0 : n - (s + c) = 0 := by omega
          rw [h0]
          simp
      · rw [pyRange_eq_nil (by omega)]
        simp [Nat.sub_eq_zero_of_le (by omega : n ≤ s)]
  exact fun s => H (n - s) s le_rfl

lemma pyRange_head {s n c : Nat} (hc : 0 < c) (hs : s < n) :
    (pyRange s n c).head? = some s := by
  rw [pyRange_eq_cons hc hs]
  rfl

lemma pyRange_getLast {n c : Nat} (hc : 0 < c) :
    ∀ s, s < n → ∃ l, (pyRange s n c).getLast? = some l ∧ l < n ∧ n ≤ l + c := by
  have H : ∀ m s, n - s ≤ m → s < n →
      ∃ l, (pyRange s n c).getLast? = some l ∧ l < n ∧ n ≤ l + c := by
    intro m
    induction m with
    | zero =>
      intro s hm hs
      omega
    | succ m ih =>
      intro s hm hs
      by_cases hs2 : s + c < n
      · obtain ⟨l, hl, hln, hlc⟩ := ih (s + c) (by omega) hs2
        refine ⟨l, ?_, hln, hlc⟩
        rw [pyRange_eq_cons hc hs, pyRange_eq_cons hc hs2,
          List.getLast?_cons_cons, ← pyRange_eq_cons hc hs2]
        exact hl
      · refine ⟨s, ?_, hs, by omega⟩
        rw [pyRange_eq_cons hc hs, pyRange_eq_nil (by omega : n ≤ s + c)]
        rfl
  exact fun s hs => H (n - s) s le_rfl hs

lemma chunkRanges_chain {n c : Nat} (hc : 0 < c) :
    List.Chain' (fun a b : Nat × Nat => a.2 = b.1 ∧ b.1 = a.1 + c ∧ a.2 = a.1 + c)
      (chunkRanges n c) := by
  unfold chunkRanges
  refine List.chain'_map_of_chain' _ ?_ (pyRange_chain hc 0)
  rintro x y ⟨rfl, hy⟩
  refine ⟨?_, rfl, ?_⟩ <;> simp <;> omega

lemma chunkRanges_mem {n c : Nat} (hc : 0 < c) {r : Nat × Nat}
    (hr : r ∈ chunkRanges n c) :
    r.1 < n ∧ r.2 = min (r.1 + c) n ∧ r.1 < r.2 ∧ r.2 - r.1 ≤ c := by
  unfold chunkRanges at hr
  obtain ⟨x, hx, rfl⟩ := List.mem_map.mp hr
  have := pyRange_mem_lt hc 0 x hx
  refine ⟨this, rfl, ?_, ?_⟩ <;> simp <;> omega

lemma chunkRanges_cover {n c : Nat} (hc : 0 < c) :
    (chunkRanges n c).flatMap (fun r => List.range' r.1 (r.2 - r.1)) = List.range n := by
  unfold chunkRanges
  rw [List.flatMap_map, List.range_eq_range']
  have h := pyRange_cover (n := n) (c := c) hc 0
  simpa using h

lemma chunkRanges_head {n c : Nat} (hc : 0 < c) (hn : 0 < n) :
    (chunkRanges n c).head? = some (0, min c n) := by
  unfold chunkRanges
  rw [List.head?_map, pyRange_head hc hn]
  simp

lemma chunkRanges_getLast {n c : Nat} (hc : 0 < c) (hn : 0 < n) :
    ∃ r, (chunkRanges n c).getLast? = some r ∧ r.2 = n := by
  obtain ⟨l, hl, hln, hlc⟩ := pyRange_getLast hc 0 hn
  refine ⟨(l, min (l + c) n), ?_, by omega⟩
  unfold chunkRanges
  rw [List.getLast?_map, hl]
  rfl

/-! ## Trace and slicing lemmas -/

lemma pySlice_length {α : Type} (xs : List α) (s e : Nat) :
    (pySlice xs s e).length = min e xs.length - s := by
  simp [pySlice]

lemma pySlice_getElem? {α : Type} (xs : List α) (s e i : Nat) (hi : s + i < e) :
    (pySlice xs s e)[i]? = xs[s + i]? := by
  rw [pySlice, List.getElem?_drop, List.getElem?_take_of_lt hi]

lemma writtenFrames_append {α : Type} (l1 l2 : List (Ev α)) :
    writtenFrames (l1 ++ l2) = writtenFrames l1 ++ writtenFrames l2 := by
  simp [writtenFrames]

lemma writtenFrames_map_writeFrame {α : Type} (out : String)
    (l : List (Nat × (α × PageInfo))) :
    writtenFrames (l.map fun p => (Ev.writeFrame out p.1 p.2.1 p.2.2 (p.1 == 0) : Ev α))
      = l.map fun p => p.2.1 := by
  induction l with
  | nil => rfl
  | cons a l ih => simpa [writtenFrames, List.filterMap_cons] using ih

lemma writtenFrames_writeFrameEvents {α : Type} (out : String) (fs : List α)
    (infos : List PageInfo) :
    writtenFrames (writeFrameEvents out fs infos) = (fs.zip infos).map Prod.fst := by
  unfold writeFrameEvents
  rw [writtenFrames_map_writeFrame]
  have h1 : ((fs.zip infos).enum.map fun p => p.2.1)
      = ((fs.zip infos).enum.map Prod.snd).map Prod.fst := by
    rw [List.map_map]
    rfl
  rw [h1, List.enum_map_snd]

lemma extractExtratags_code_not_auto {tags : List Tag} {et : ExtraTag}
    (h : et ∈ extractExtratags tags) : et.code ∉ _AUTO_HANDLED_TAG_CODES := by
  unfold extractExtratags at h
  obtain ⟨t, _, ht⟩ := List.mem_filterMap.mp h
  by_cases hauto : t.code ∈ _AUTO_HANDLED_TAG_CODES
  · simp [hauto] at ht
  · by_cases hrep : t.representable
    · simp only [if_neg hauto, if_pos hrep, Option.some.injEq] at ht
      rw [← ht]
      exact hauto
    · simp [hauto, hrep] at ht

lemma info_mem_of_mem_writeFrameEvents {α : Type} {out path : String} {fs : List α}
    {infos : List PageInfo} {idx : Nat} {f : α} {info : PageInfo} {b : Bool}
    (h : Ev.writeFrame path idx f info b ∈ writeFrameEvents out fs infos) :
    info ∈ infos := by
  unfold writeFrameEvents at h
  obtain ⟨⟨i, fr, inf⟩, hmem, heq⟩ := List.mem_map.mp h
  simp only [Ev.writeFrame.injEq] at heq
  obtain ⟨-, -, -, rfl, -⟩ := heq
  have h2 : (fr, inf) ∈ fs.zip infos := by
    have h3 := List.mem_enum_iff_getElem?.mp hmem
    exact List.getElem?_mem h3
  exact (List.of_mem_zip h2).2

/-! ## The claims -/

/-- C6: the frame-range parser maps `"0:100"` to `(0, 100)` and `"10:"` to
`(10, unbounded)`; it fails with a format error on input with no separator
and on input with an empty start portion; and for every input whose start
or nonempty end portion is not a valid integer, it fails with a
numeric-parse error. -/
theorem C6_parse_frame_range_behavior :
    parse_frame_range "0:100" = .ok (0, some 100) ∧
    parse_frame_range "10:" = .ok (10, none) ∧
    parse_frame_range "abc" = .error .formatNoSeparator ∧
    parse_frame_range ":5" = .error .formatEmptyStart ∧
    ∀ t : String, hasColon (pyStrip t) = true →
      pyStrip (pySplitFirstColon (pyStrip t)).1 ≠ "" →
      (pyInt (pyStrip (pySplitFirstColon (pyStrip t)).1) = none ∨
        (pyStrip (pySplitFirstColon (pyStrip t)).2 ≠ "" ∧
          pyInt (pyStrip (pySplitFirstColon (pyStrip t)).2) = none)) →
      ∃ p, parse_frame_range t = .error (.numericParse p) := by
  refine ⟨by rfl, by rfl, by rfl, by rfl, ?_⟩
  intro t hcol hstart hbad
  simp only [parse_frame_range]
  rw [hcol]
  simp only [Bool.not_true, Bool.false_eq_true, if_false]
  rw [if_neg hstart]
  cases h1 : pyInt (pyStrip (pySplitFirstColon (pyStrip t)).1) with
  | none => exact ⟨_, rfl⟩
  | some v =>
    rcases hbad with hbad | ⟨hne, hnone⟩
    · rw [h1] at hbad
      cases hbad
    · dsimp only
      rw [if_neg hne, hnone]
      exact ⟨_, rfl⟩

/-- Witness for C6: the universal clause applied to the concrete input
`"a:5"`, whose start portion is not a valid integer. -/
theorem C6_witness :
    ∃ p, parse_frame_range "a:5" = Except.error (RangeErr.numericParse p) :=
  C6_parse_frame_range_behavior.2.2.2.2 "a:5" (by decide) (by decide)
    (Or.inl (by decide))

/-- C2: for every command line selecting split mode, `main` returns exit
code 2 with an empty event trace (no output file created, the input never
opened), because the call passes the keyword argument `block_size`, which
`split_3d_tiff_into_chunks` does not accept, so the call raises `TypeError`
before the callee's body runs and the top-level handler catches it. -/
theorem C2_cli_split_mode_always_exit2 {α : Type} (args : Args)
    (inputExists : Bool) (arr : NpArr α) (pages : List Page) (c : Int)
    (hc : args.chunk_size = some c) :
    Cli.main args inputExists arr pages = (2, ([] : List (Ev α))) ∧
    "block_size" ∉ split_accepted_keywords ∧
    unexpectedKeyword cli_split_call_keywords split_accepted_keywords =
      some "block_size" := by
  refine ⟨?_, by decide, by decide⟩
  unfold Cli.main
  rw [hc]
  rw [show unexpectedKeyword cli_split_call_keywords split_accepted_keywords =
    some "block_size" from by decide]
  rfl

/-- Witness for C2: a concrete split-mode command line on a concrete
10-frame stack. -/
theorem C2_witness :
    Cli.main (⟨"in.tif", "out", none, some 4, 3, false⟩ : Args) true
      (⟨[10, 5, 5], List.range 10⟩ : NpArr Nat) [] = (2, []) ∧
    "block_size" ∉ split_accepted_keywords ∧
    unexpectedKeyword cli_split_call_keywords split_accepted_keywords =
      some "block_size" :=
  C2_cli_split_mode_always_exit2 _ true _ [] 4 rfl

/-! ## Evaluation lemmas for the two operations -/

lemma trim_ok {α : Type} (ip op : String) (arr : NpArr α) (pages : List Page)
    (s e : Int) (n h w : Nat) (h3 : arr.shape = [n, h, w])
    (hs0 : 0 ≤ s) (hsn : s ≤ (n : Int)) (he0 : 0 ≤ e) (hen : e ≤ (n : Int))
    (hse : s < e) :
    trim_3d_tiff true ip arr pages op s (some e) =
      (Ev.mkdirParents op :: Ev.createFile op ::
        writeFrameEvents op (pySlice arr.frames s.toNat e.toNat)
          ((pySlice pages s.toNat e.toNat).map pageInfoOf), none) := by
  unfold trim_3d_tiff
  rw [h3]
  simp only [Bool.not_true, Bool.false_eq_true, if_false, List.headD_cons,
    Option.getD_some, List.length_cons, List.length_nil]
  rw [if_neg (by omega), if_neg (by simp; omega), if_neg (by simp; omega),
    if_neg (by simp; omega)]
  simp

lemma split_ok {α : Type} (ip od stem : String) (arr : NpArr α)
    (pages : List Page) (c : Int) (n h w : Nat) (h3 : arr.shape = [n, h, w])
    (hc : 0 < c) (hn : 0 < n) :
    split_3d_tiff_into_chunks true ip arr pages od stem c =
      (Ev.mkdirParents od ::
        (chunkRanges n c.toNat).flatMap (chunkEvents arr pages od stem),
        .ok ((chunkRanges n c.toNat).map (chunkPath od stem))) := by
  unfold split_3d_tiff_into_chunks
  rw [if_neg (by omega), h3]
  simp only [Bool.not_true, Bool.false_eq_true, if_false, List.headD_cons,
    List.length_cons, List.length_nil]
  rw [if_neg (by omega), if_neg (by omega)]
  simp

lemma writtenFrames_cons_mkdir {α : Type} (p : String) (l : List (Ev α)) :
    writtenFrames (Ev.mkdirParents p :: l) = writtenFrames l := rfl

lemma writtenFrames_cons_createFile {α : Type} (p : String) (l : List (Ev α)) :
    writtenFrames (Ev.createFile p :: l) = writtenFrames l := rfl

lemma trim_trace_cases {α : Type} (inputExists : Bool) (ip op : String)
    (arr : NpArr α) (pages : List Page) (s : Int) (eo : Option Int) :
    (trim_3d_tiff inputExists ip arr pages op s eo).1 = [] ∨
    (trim_3d_tiff inputExists ip arr pages op s eo).1 = [Ev.mkdirParents op] ∨
    ∃ (fs : List α) (ps : List Page),
      (trim_3d_tiff inputExists ip arr pages op s eo).1 =
      Ev.mkdirParents op :: Ev.createFile op ::
        writeFrameEvents op fs (ps.map pageInfoOf) := by
  unfold trim_3d_tiff
  dsimp only
  split_ifs
  · exact Or.inl rfl
  · exact Or.inr (Or.inl rfl)
  · exact Or.inr (Or.inl rfl)
  · exact Or.inr (Or.inl rfl)
  · exact Or.inr (Or.inl rfl)
  · exact Or.inr (Or.inr ⟨_, _, rfl⟩)

lemma split_trace_cases {α : Type} (inputExists : Bool) (ip od stem : String)
    (arr : NpArr α) (pages : List Page) (c : Int) :
    (split_3d_tiff_into_chunks inputExists ip arr pages od stem c).1 = [] ∨
    (split_3d_tiff_into_chunks inputExists ip arr pages od stem c).1 =
      [Ev.mkdirParents od] ∨
    ∃ rs : List (Nat × Nat),
      (split_3d_tiff_into_chunks inputExists ip arr pages od stem c).1 =
        Ev.mkdirParents od :: rs.flatMap (chunkEvents arr pages od stem) := by
  unfold split_3d_tiff_into_chunks
  dsimp only
  split_ifs
  · exact Or.inl rfl
  · exact Or.inl rfl
  · exact Or.inr (Or.inl rfl)
  · exact Or.inr (Or.inl rfl)
  · exact Or.inr (Or.inr ⟨_, rfl⟩)

lemma trim_info_provenance {α : Type} {inputExists : Bool} {ip op path : String}
    {arr : NpArr α} {pages : List Page} {s : Int} {eo : Option Int}
    {idx : Nat} {f : α} {info : PageInfo} {b : Bool}
    (hm : Ev.writeFrame path idx f info b ∈
      (trim_3d_tiff inputExists ip arr pages op s eo).1) :
    ∃ p : Page, info = pageInfoOf p := by
  rcases trim_trace_cases inputExists ip op arr pages s eo with
    hcase | hcase | ⟨fs, ps, hcase⟩ <;> rw [hcase] at hm
  · simp at hm
  · simp at hm
  · simp only [List.mem_cons] at hm
    rcases hm with hm | hm | hm
    · simp at hm
    · simp at hm
    · have h2 := info_mem_of_mem_writeFrameEvents hm
      obtain ⟨p, _, hpe⟩ := List.mem_map.mp h2
      exact ⟨p, hpe.symm⟩

lemma split_info_provenance {α : Type} {inputExists : Bool}
    {ip od stem path : String} {arr : NpArr α} {pages : List Page} {c : Int}
    {idx : Nat} {f : α} {info : PageInfo} {b : Bool}
    (hm : Ev.writeFrame path idx f info b ∈
      (split_3d_tiff_into_chunks inputExists ip arr pages od stem c).1) :
    ∃ p : Page, info = pageInfoOf p := by
  rcases split_trace_cases inputExists ip od stem arr pages c with
    hcase | hcase | ⟨rs, hcase⟩ <;> rw [hcase] at hm
  · simp at hm
  · simp at hm
  · simp only [List.mem_cons] at hm
    rcases hm with hm | hm
    · simp at hm
    · obtain ⟨r, _, hev⟩ := List.mem_flatMap.mp hm
      unfold chunkEvents at hev
      simp only [List.mem_cons] at hev
      rcases hev with hev | hev
      · simp at hev
      · have h2 := info_mem_of_mem_writeFrameEvents hev
        obtain ⟨p, _, hpe⟩ := List.mem_map.mp h2
        exact ⟨p, hpe.symm⟩

/-- C3: for every 3-dimensional input stack and every valid pair
`(start, end)` with `0 ≤ start < end ≤ frame_count`, the trim operation
writes exactly `end - start` frames, and the frame written at output index
`i` is the source frame `start + i`, emitted in original order (the written
frames are read off the event trace in emission order). -/
theorem C3_trim_output_frames {α : Type} (ip op : String) (arr : NpArr α)
    (pages : List Page) (n h w : Nat) (s e : Int)
    (h3 : arr.shape = [n, h, w]) (hlen : arr.frames.length = n)
    (hp : pages.length = n)
    (hs0 : 0 ≤ s) (hse : s < e) (hen : e ≤ (n : Int)) :
    ((writtenFrames (trim_3d_tiff true ip arr pages op s (some e)).1).length : Int)
        = e - s ∧
    ∀ i : Nat, (i : Int) < e - s →
      (writtenFrames (trim_3d_tiff true ip arr pages op s (some e)).1)[i]? =
        arr.frames[s.toNat + i]? := by
  have hsn : s ≤ (n : Int) := by omega
  have he0 : 0 ≤ e := by omega
  have hlen2 : (pySlice arr.frames s.toNat e.toNat).length ≤
      ((pySlice pages s.toNat e.toNat).map pageInfoOf).length := by
    rw [List.length_map, pySlice_length, pySlice_length, hlen, hp]
  have hout : writtenFrames (trim_3d_tiff true ip arr pages op s (some e)).1 =
      pySlice arr.frames s.toNat e.toNat := by
    rw [trim_ok ip op arr pages s e n h w h3 hs0 hsn he0 hen hse]
    dsimp only
    rw [writtenFrames_cons_mkdir, writtenFrames_cons_createFile,
      writtenFrames_writeFrameEvents, List.map_fst_zip _ _ hlen2]
  constructor
  · rw [hout, pySlice_length, hlen]
    omega
  · intro i hi
    rw [hout, pySlice_getElem? _ _ _ _ (by omega)]

/-- Witness for C3: trimming the concrete 5-frame stack `[10, 11, 12, 13, 14]`
to `[1, 4)` writes 3 frames and frame 0 of the output is source frame 1. -/
theorem C3_witness :
    ((writtenFrames (trim_3d_tiff true "in.tif"
        (⟨[5, 1, 1], [10, 11, 12, 13, 14]⟩ : NpArr Nat)
        (List.replicate 5 samplePage) "o.tif" 1 (some 4)).1).length : Int) =
      4 - 1 ∧
    (writtenFrames (trim_3d_tiff true "in.tif"
        (⟨[5, 1, 1], [10, 11, 12, 13, 14]⟩ : NpArr Nat)
        (List.replicate 5 samplePage) "o.tif" 1 (some 4)).1)[0]? =
      (⟨[5, 1, 1], [10, 11, 12, 13, 14]⟩ : NpArr Nat).frames[(1 : Int).toNat + 0]? := by
  have hthm := C3_trim_output_frames "in.tif" "o.tif"
    (⟨[5, 1, 1], [10, 11, 12, 13, 14]⟩ : NpArr Nat)
    (List.replicate 5 samplePage) 5 1 1 1 4 rfl rfl rfl (by decide) (by decide)
    (by decide)
  exact ⟨hthm.1, hthm.2 0 (by decide)⟩

/-- C4: no tag whose code belongs to the auto-handled set ever appears in
the extra-tags list of any page written by trim or by split, and the
auto-handled set is exactly the 12 codes for image width, image length,
bits-per-sample, compression, photometric interpretation,
samples-per-pixel, rows-per-strip, strip byte counts, planar
configuration, predictor, color map, and sample format. -/
theorem C4_auto_tags_never_in_output {α : Type} :
    (∀ (inputExists : Bool) (ip op path : String) (arr : NpArr α)
      (pages : List Page) (s : Int) (eo : Option Int) (idx : Nat) (f : α)
      (info : PageInfo) (b : Bool),
      Ev.writeFrame path idx f info b ∈
        (trim_3d_tiff inputExists ip arr pages op s eo).1 →
      ∀ et ∈ info.extratags, et.code ∉ _AUTO_HANDLED_TAG_CODES) ∧
    (∀ (inputExists : Bool) (ip od stem path : String) (arr : NpArr α)
      (pages : List Page) (c : Int) (idx : Nat) (f : α)
      (info : PageInfo) (b : Bool),
      Ev.writeFrame path idx f info b ∈
        (split_3d_tiff_into_chunks inputExists ip arr pages od stem c).1 →
      ∀ et ∈ info.extratags, et.code ∉ _AUTO_HANDLED_TAG_CODES) ∧
    (∀ cd : Nat, cd ∈ _AUTO_HANDLED_TAG_CODES ↔
      (cd = 256 ∨ cd = 257 ∨ cd = 258 ∨ cd = 259 ∨ cd = 262 ∨ cd = 277 ∨
        cd = 278 ∨ cd = 279 ∨ cd = 284 ∨ cd = 317 ∨ cd = 320 ∨ cd = 339)) := by
  refine ⟨?_, ?_, ?_⟩
  · intro inputExists ip op path arr pages s eo idx f info b hm et het
    obtain ⟨p, rfl⟩ := trim_info_provenance hm
    exact extractExtratags_code_not_auto het
  · intro inputExists ip od stem path arr pages c idx f info b hm et het
    obtain ⟨p, rfl⟩ := split_info_provenance hm
    exact extractExtratags_code_not_auto het
  · intro cd
    simp [_AUTO_HANDLED_TAG_CODES]

/-- Witness for C4: the trim conjunct applied to a concrete one-frame run
whose page carries tag 270, at the concrete write event of that run. -/
theorem C4_witness :
    (⟨270, 2, 5, TagValue.scalar 7, false⟩ : ExtraTag).code ∉
      _AUTO_HANDLED_TAG_CODES :=
  (C4_auto_tags_never_in_output (α := Nat)).1 true "in.tif" "o.tif" "o.tif"
    ⟨[1, 1, 1], [0]⟩ [samplePage] 0 (some 1) 0 0 (pageInfoOf samplePage) true
    (by decide) ⟨270, 2, 5, TagValue.scalar 7, false⟩ (by decide)

/-- C5: given a 3-dimensional stack with `n` frames and with the unbounded
end already resolved (an explicit end is passed), trim raises a range error
if and only if `start < 0`, or `start > n`, or `end < 0`, or `end > n`, or
`start ≥ end`; otherwise validation passes and no error is raised. -/
theorem C5_trim_validation {α : Type} (ip op : String) (arr : NpArr α)
    (pages : List Page) (n h w : Nat) (s e : Int) (h3 : arr.shape = [n, h, w]) :
    (trim_3d_tiff true ip arr pages op s (some e)).2.isSome ↔
      (s < 0 ∨ s > (n : Int) ∨ e < 0 ∨ e > (n : Int) ∨ s ≥ e) := by
  constructor
  · intro hsome
    by_contra hno
    push_neg at hno
    obtain ⟨h1, h2, h4, h5, h6⟩ := hno
    rw [trim_ok ip op arr pages s e n h w h3 (by omega) (by omega) (by omega)
      (by omega) (by omega)] at hsome
    simp at hsome
  · intro hdisj
    unfold trim_3d_tiff
    rw [h3]
    simp only [Bool.not_true, Bool.false_eq_true, if_false, List.headD_cons,
      Option.getD_some, List.length_cons, List.length_nil]
    rw [if_neg (by omega)]
    split_ifs with hc1 hc2 hc3
    · simp
    · simp
    · simp
    · exfalso
      simp at hc1 hc2 hc3
      omega

/-- Witness for C5: on a concrete 3-frame stack with `start = 0`,
`end = 5 > 3`, the validation error is raised, matching the disjunction. -/
theorem C5_witness :
    ((trim_3d_tiff true "in.tif" (⟨[3, 2, 2], [9, 8, 7]⟩ : NpArr Nat) []
        "o.tif" 0 (some 5)).2.isSome ↔
      ((0 : Int) < 0 ∨ (0 : Int) > ((3 : Nat) : Int) ∨ (5 : Int) < 0 ∨
        (5 : Int) > ((3 : Nat) : Int) ∨ (0 : Int) ≥ 5)) :=
  C5_trim_validation "in.tif" "o.tif" (⟨[3, 2, 2], [9, 8, 7]⟩ : NpArr Nat) []
    3 2 2 0 5 rfl

/-- C7: for every frame count `n > 0` and chunk size `c > 0`, the chunk
ranges computed by split cover `[0, n)` contiguously, disjointly and in
ascending order (their concatenated half-open intervals are exactly
`0, 1, ..., n-1`), each range has positive length at most `c`, the first
range starts at 0, the last range ends at `n`, and split returns the
written paths, one per chunk, named
`<stem>_frames_<start>_<end>.tif` (end exclusive) in ascending start order;
in particular a 10-frame stack with chunk size 4 yields ranges
`[0,4), [4,8), [8,10)` and three files. -/
theorem C7_split_chunk_plan {α : Type} (ip od stem : String) (arr : NpArr α)
    (pages : List Page) (c : Int) (n h w : Nat)
    (h3 : arr.shape = [n, h, w]) (hn : 0 < n) (hc : 0 < c) :
    ((chunkRanges n c.toNat).flatMap fun r => List.range' r.1 (r.2 - r.1)) =
      List.range n ∧
    (∀ r ∈ chunkRanges n c.toNat, r.1 < r.2 ∧ r.2 - r.1 ≤ c.toNat) ∧
    List.Chain' (fun a b : Nat × Nat => a.2 = b.1) (chunkRanges n c.toNat) ∧
    List.Chain' (fun a b : Nat × Nat => a.1 < b.1) (chunkRanges n c.toNat) ∧
    (chunkRanges n c.toNat).head? = some (0, min c.toNat n) ∧
    ((chunkRanges n c.toNat).getLast?).map Prod.snd = some n ∧
    (split_3d_tiff_into_chunks true ip arr pages od stem c).2 =
      .ok ((chunkRanges n c.toNat).map (chunkPath od stem)) ∧
    chunkRanges 10 4 = [(0, 4), (4, 8), (8, 10)] ∧
    chunkPath "out" "stack" (8, 10) = "out/stack_frames_8_10.tif" := by
  have hct : 0 < c.toNat := by omega
  refine ⟨chunkRanges_cover hct, ?_, ?_, ?_, chunkRanges_head hct hn, ?_, ?_,
    by rfl, by rfl⟩
  · intro r hr
    have hmem := chunkRanges_mem hct hr
    exact ⟨hmem.2.2.1, hmem.2.2.2⟩
  · exact (chunkRanges_chain hct).imp fun a b hab => hab.1
  · exact (chunkRanges_chain hct).imp fun a b hab => by omega
  · obtain ⟨r, heq, hsnd⟩ := chunkRanges_getLast hct hn
    rw [heq]
    simp [hsnd]
  · rw [split_ok ip od stem arr pages c n h w h3 hc hn]

/-- Witness for C7: splitting a concrete 10-frame stack with chunk size 4
yields exactly the three expected files and the ranges
`[(0,4), (4,8), (8,10)]`. -/
theorem C7_witness :
    (split_3d_tiff_into_chunks true "in.tif"
        (⟨[10, 2, 2], List.range 10⟩ : NpArr Nat) [] "out" "stack" 4).2 =
      .ok ["out/stack_frames_0_4.tif", "out/stack_frames_4_8.tif",
        "out/stack_frames_8_10.tif"] ∧
    chunkRanges 10 4 = [(0, 4), (4, 8), (8, 10)] := by
  have hthm := C7_split_chunk_plan "in.tif" "out" "stack"
    (⟨[10, 2, 2], List.range 10⟩ : NpArr Nat) [] 4 10 2 2 rfl (by decide)
    (by decide)
  refine ⟨?_, hthm.2.2.2.2.2.2.2.1⟩
  rw [hthm.2.2.2.2.2.2.1]
  rfl

/-- C8: whenever trim is invoked with `start ≥ end`, or with an end greater
than the frame count, or on an input array that is not exactly
3-dimensional, it raises an error and its event trace contains no
output-file creation (the failure happens before any output file is
created). -/
theorem C8_trim_fails_before_output {α : Type} (inputExists : Bool)
    (ip op : String) (arr : NpArr α) (pages : List Page) (s e : Int)
    (hbad : s ≥ e ∨ e > ((arr.shape.headD 0 : Nat) : Int) ∨ arr.shape.length ≠ 3) :
    (trim_3d_tiff inputExists ip arr pages op s (some e)).2.isSome = true ∧
    ∀ ev ∈ (trim_3d_tiff inputExists ip arr pages op s (some e)).1,
      ev.isCreate = false := by
  unfold trim_3d_tiff
  cases inputExists
  · simp
  · simp only [Bool.not_true, Bool.false_eq_true, if_false, Option.getD_some]
    split_ifs with hc1 hc2 hc3 hc4
    · simp [Ev.isCreate]
    · simp [Ev.isCreate]
    · simp [Ev.isCreate]
    · simp [Ev.isCreate]
    · exfalso
      simp only [List.headD_eq_head?_getD] at hbad
      simp at hc2 hc3 hc4
      omega

/-- Witness for C8: trimming a concrete 3-frame stack with
`start = 2 ≥ end = 1` raises an error. -/
theorem C8_witness :
    (trim_3d_tiff true "in.tif" (⟨[3, 1, 1], [0, 1, 2]⟩ : NpArr Nat) [] "o.tif"
      2 (some 1)).2.isSome = true :=
  (C8_trim_fails_before_output true "in.tif" "o.tif"
    (⟨[3, 1, 1], [0, 1, 2]⟩ : NpArr Nat) [] 2 1 (Or.inl (by decide))).1

/-- C9: for every chunk size `c > 0`, splitting a stack whose frame count
is 0 returns the empty list with no error, and its trace creates no output
file (only the output directory is created). -/
theorem C9_split_empty_stack {α : Type} (ip od stem : String) (arr : NpArr α)
    (pages : List Page) (c : Int) (h w : Nat) (hc : 0 < c)
    (h3 : arr.shape = [0, h, w]) :
    split_3d_tiff_into_chunks true ip arr pages od stem c =
      ([Ev.mkdirParents od], .ok []) ∧
    ∀ ev ∈ (split_3d_tiff_into_chunks true ip arr pages od stem c).1,
      ev.isCreate = false := by
  have heq : split_3d_tiff_into_chunks true ip arr pages od stem c =
      ([Ev.mkdirParents od], .ok []) := by
    unfold split_3d_tiff_into_chunks
    rw [if_neg (by omega), h3]
    simp
  refine ⟨heq, ?_⟩
  rw [heq]
  simp [Ev.isCreate]

/-- Witness for C9: splitting a concrete 0-frame stack with chunk size 5
returns the empty list and only creates the output directory. -/
theorem C9_witness :
    split_3d_tiff_into_chunks true "in.tif" (⟨[0, 4, 4], []⟩ : NpArr Nat) []
      "out" "stack" 5 = ([Ev.mkdirParents "out"], .ok []) :=
  (C9_split_empty_stack "in.tif" "out" "stack" (⟨[0, 4, 4], []⟩ : NpArr Nat)
    [] 5 4 4 (by decide) rfl).1

/-- C10: a tag whose value cannot be represented is dropped alone — the
extraction of any tag list containing one unrepresentable tag equals the
extraction with just that tag removed, so all other representable tags are
still carried — and neither trim nor split can abort because of tag
contents: the error component of both operations is independent of the
pages (hence of every tag) entirely. -/
theorem C10_unrepresentable_tag_dropped_locally {α : Type} :
    (∀ (tl1 : List Tag) (t : Tag) (tl2 : List Tag), t.representable = false →
      extractExtratags (tl1 ++ t :: tl2) = extractExtratags (tl1 ++ tl2)) ∧
    (∀ (inputExists : Bool) (ip op : String) (arr : NpArr α)
      (pages pages' : List Page) (s : Int) (eo : Option Int),
      (trim_3d_tiff inputExists ip arr pages op s eo).2 =
        (trim_3d_tiff inputExists ip arr pages' op s eo).2) ∧
    (∀ (inputExists : Bool) (ip od stem : String) (arr : NpArr α)
      (pages pages' : List Page) (c : Int),
      (split_3d_tiff_into_chunks inputExists ip arr pages od stem c).2 =
        (split_3d_tiff_into_chunks inputExists ip arr pages' od stem c).2) := by
  refine ⟨?_, ?_, ?_⟩
  · intro tl1 t tl2 hrep
    have hnone : (fun tag : Tag =>
        if tag.code ∈ _AUTO_HANDLED_TAG_CODES then none
        else if tag.representable then
          some (⟨tag.code, tag.dtype, tag.count,
            normalizeTagValue tag.value, false⟩ : ExtraTag)
        else none) t = none := by
      simp [hrep]
    simp [extractExtratags, List.filterMap_append, List.filterMap_cons, hnone]
  · intro inputExists ip op arr pages pages' s eo
    unfold trim_3d_tiff
    dsimp only
    split_ifs <;> rfl
  · intro inputExists ip od stem arr pages pages' c
    unfold split_3d_tiff_into_chunks
    dsimp only
    split_ifs <;> rfl

/-- Witness for C10: dropping a concrete unrepresentable tag (code 305)
from a concrete tag list keeps the representable tag (code 270). -/
theorem C10_witness :
    extractExtratags ([⟨270, 2, 5, TagValue.scalar 7, true⟩] ++
        (⟨305, 2, 3, TagValue.scalar 1, false⟩ : Tag) :: []) =
      extractExtratags ([⟨270, 2, 5, TagValue.scalar 7, true⟩] ++ []) :=
  (C10_unrepresentable_tag_dropped_locally (α := Nat)).1
    [⟨270, 2, 5, TagValue.scalar 7, true⟩] ⟨305, 2, 3, TagValue.scalar 1, false⟩
    [] rfl

/-- C1, counterexample: the claim fails on the code.  The code computes the
chunk ranges of a 10-frame stack with chunk size 4 as lengths `[4, 4, 2]`,
whose first (non-final) chunk is not a multiple of the default block size 3
— no truncation to a multiple of the block size happens anywhere — and
`split_3d_tiff_into_chunks` does not even accept a `block_size` keyword, so
requesting a block size through the CLI makes the whole invocation exit
with code 2 and an empty trace instead of producing truncated chunks. -/
theorem C1_counterexample :
    (chunkRanges 10 4).length = 3 ∧
    (chunkRanges 10 4).map (fun r => r.2 - r.1) = [4, 4, 2] ∧
    ¬ (4 % 3 = 0) ∧
    "block_size" ∉ split_accepted_keywords ∧
    Cli.main (⟨"in.tif", "out", none, some 4, 3, false⟩ : Args) true
      (⟨[10, 1, 1], List.range 10⟩ : NpArr Nat) [] = (2, []) :=
  ⟨by rfl, by rfl, by decide, by decide, by rfl⟩

/-- C1, amended: the code applies no block-size refinement at all.
`split_3d_tiff_into_chunks` accepts no `block_size` parameter, and in its
chunk plan every chunk except possibly the final one has exactly
`chunk_size` frames (never rounded to a block-size multiple), with the
final chunk ending at the last frame of the stack. -/
theorem C1_amended_no_block_size_refinement (n c : Nat) (hn : 0 < n)
    (hc : 0 < c) :
    "block_size" ∉ split_accepted_keywords ∧
    List.Chain' (fun a _ : Nat × Nat => a.2 - a.1 = c) (chunkRanges n c) ∧
    ((chunkRanges n c).getLast?).map Prod.snd = some n := by
  refine ⟨by decide, ?_, ?_⟩
  · exact (chunkRanges_chain hc).imp fun a b hab => by omega
  · obtain ⟨r, heq, hsnd⟩ := chunkRanges_getLast hc hn
    rw [heq]
    simp [hsnd]

/-- Witness for the amended C1, at the concrete plan of a 10-frame stack
with chunk size 4. -/
theorem C1_amended_witness :
    "block_size" ∉ split_accepted_keywords ∧
    List.Chain' (fun a _ : Nat × Nat => a.2 - a.1 = 4) (chunkRanges 10 4) ∧
    ((chunkRanges 10 4).getLast?).map Prod.snd = some 10 :=
  C1_amended_no_block_size_refinement 10 4 (by decide) (by decide)
